import Mathlib

/-!
# fsp-vesting: verification of the binary codec, instruction decoding and vesting math

Shallow embedding of the vesting program. Bytes are modelled as `Nat`
(valid when `< 256`), buffers as `List Nat`, 32-byte identities (Pubkey)
as lists of length 32, `u64` as `Nat` below `2 ^ 64` and `i64` as `Int`
in the signed 64-bit range, packed in two's complement little-endian.

The persisted-state codec (`state.rs`) and the instruction field decoders
(`instruction.rs` helpers) are translated from the source. The bodies of
`VestingInstruction::unpack` and `Processor::process` are stubs in the
source (`unimplemented`), so the instruction dispatch and the vesting math
are modelled from the spec where noted.
-/

deriving instance DecidableEq for Except

namespace FspVesting

/-- Little-endian byte decoding: `leBytesToNat [b0, b1, ...] = b0 + 256 * (b1 + ...)`. -/
def leBytesToNat : List Nat → Nat
  | [] => 0
  | b :: bs => b + 256 * leBytesToNat bs

/-- Little-endian byte encoding of `n` into exactly `k` bytes (low byte first),
modelling `to_le_bytes` on a `k`-byte unsigned integer. -/
def natToLeBytes : Nat → Nat → List Nat
  | 0, _ => []
  | k + 1, n => n % 256 :: natToLeBytes k (n / 256)

/-- `u64::to_le_bytes`. -/
def u64ToLeBytes (n : Nat) : List Nat := natToLeBytes 8 n

/-- `u64::from_le_bytes`. -/
def u64FromLeBytes (bs : List Nat) : Nat := leBytesToNat bs

/-- Two's complement image of an `i64` as an unsigned 64-bit value. -/
def i64ToUnsigned (i : Int) : Nat := (i % (2 ^ 64 : Int)).toNat

/-- `i64::to_le_bytes` (two's complement little-endian). -/
def i64ToLeBytes (i : Int) : List Nat := natToLeBytes 8 (i64ToUnsigned i)

/-- `i64::from_le_bytes` (two's complement little-endian). -/
def i64FromLeBytes (bs : List Nat) : Int :=
  let n := leBytesToNat bs
  if n < 2 ^ 63 then (n : Int) else (n : Int) - 2 ^ 64

/-- A 32-byte identity (`Pubkey`) is a list of 32 bytes. -/
def ValidPubkey (k : List Nat) : Prop := k.length = 32 ∧ ∀ b ∈ k, b < 256

instance : DecidablePred ValidPubkey := fun k =>
  inferInstanceAs (Decidable (k.length = 32 ∧ ∀ b ∈ k, b < 256))

/-- `state.rs`: the `Frequency` enum, `repr(u8)`, variants in declaration order. -/
inductive Frequency where
  | Once
  | Slot
  | Second
  | Minute
  | Hour
  | Day
  | Week
  | Month
  | Quarter
  | Year
  deriving DecidableEq

/-- The `IntoPrimitive` derivation: `frequency as u8` is the declaration index. -/
def Frequency.toByte : Frequency → Nat
  | .Once => 0
  | .Slot => 1
  | .Second => 2
  | .Minute => 3
  | .Hour => 4
  | .Day => 5
  | .Week => 6
  | .Month => 7
  | .Quarter => 8
  | .Year => 9

/-- The `TryFromPrimitive` derivation: bytes `0..=9` map to the variants in
declaration order, every other byte is rejected. -/
def Frequency.fromByte (b : Nat) : Option Frequency :=
  if b = 0 then some .Once
  else if b = 1 then some .Slot
  else if b = 2 then some .Second
  else if b = 3 then some .Minute
  else if b = 4 then some .Hour
  else if b = 5 then some .Day
  else if b = 6 then some .Week
  else if b = 7 then some .Month
  else if b = 8 then some .Quarter
  else if b = 9 then some .Year
  else none

/-- `solana_program::program_error::ProgramError`, restricted to the variant
used by `state.rs`. -/
inductive ProgramError where
  | InvalidAccountData
  deriving DecidableEq

/-- `state.rs`: the `VestingSchedule` record. `vault : COption<Pubkey>` is
modelled as `Option`. -/
structure VestingSchedule where
  is_initialized : Bool
  authority : List Nat
  mint : List Nat
  frequency : Frequency
  start : Int
  duration : Int
  vault : Option (List Nat)
  deriving DecidableEq

/-- `state.rs`: the `Account` record (a beneficiary Position). -/
structure Account where
  is_initialized : Bool
  vesting_schedule : List Nat
  owner : List Nat
  mint : List Nat
  amount : Nat
  claimed : Nat
  deriving DecidableEq

/-- Validity of an optional identity: the key, when present, is 32 bytes. -/
def ValidVault : Option (List Nat) → Prop
  | none => True
  | some k => ValidPubkey k

instance : DecidablePred ValidVault := fun o =>
  match o with
  | none => isTrue trivial
  | some k => inferInstanceAs (Decidable (ValidPubkey k))

/-- Valid field assignment for a `VestingSchedule`: identities are 32 bytes,
`start` and `duration` are in `i64` range. -/
def ValidVestingSchedule (r : VestingSchedule) : Prop :=
  ValidPubkey r.authority ∧ ValidPubkey r.mint ∧
  -(2 ^ 63) ≤ r.start ∧ r.start < 2 ^ 63 ∧
  -(2 ^ 63) ≤ r.duration ∧ r.duration < 2 ^ 63 ∧
  ValidVault r.vault

instance : DecidablePred ValidVestingSchedule := fun _r =>
  inferInstanceAs (Decidable (_ ∧ _ ∧ _ ∧ _ ∧ _ ∧ _ ∧ _))

/-- Valid field assignment for an `Account`: identities are 32 bytes,
`amount` and `claimed` fit in `u64`. -/
def ValidAccount (a : Account) : Prop :=
  ValidPubkey a.vesting_schedule ∧ ValidPubkey a.owner ∧ ValidPubkey a.mint ∧
  a.amount < 2 ^ 64 ∧ a.claimed < 2 ^ 64

instance : DecidablePred ValidAccount := fun _a =>
  inferInstanceAs (Decidable (_ ∧ _ ∧ _ ∧ _ ∧ _))

/-- `state.rs::pack_coption_key`: writes a 4-byte presence tag into the 36-byte
destination region; writes the 32-byte body only when the key is present, the
`None` arm leaves the 32-byte body region of the destination untouched. -/
def pack_coption_key (src : Option (List Nat)) (dst : List Nat) : List Nat :=
  match src with
  | some key => [1, 0, 0, 0] ++ key
  | none => [0, 0, 0, 0] ++ dst.drop 4

/-- `state.rs::unpack_coption_key`: reads the 4-byte tag, accepting only
`[0,0,0,0]` (absent) and `[1,0,0,0]` (present, body follows). -/
def unpack_coption_key (src : List Nat) : Except ProgramError (Option (List Nat)) :=
  if src.take 4 = [0, 0, 0, 0] then .ok none
  else if src.take 4 = [1, 0, 0, 0] then .ok (some ((src.drop 4).take 32))
  else .error .InvalidAccountData

/-- The boolean byte decoding shared by both `unpack_from_slice` functions:
the source accepts exactly the 1-byte regions `[0]` and `[1]`. -/
def unpack_bool (b : Nat) : Except ProgramError Bool :=
  if b = 0 then .ok false
  else if b = 1 then .ok true
  else .error .InvalidAccountData

/-- `Frequency::try_from_primitive(...).or(Err(InvalidAccountData))`. -/
def unpack_frequency (b : Nat) : Except ProgramError Frequency :=
  match Frequency.fromByte b with
  | some f => .ok f
  | none => .error .InvalidAccountData

/-- `state.rs`: `VestingSchedule::pack_into_slice`. The source splits the first
118 bytes of `dst` into regions of widths 1, 32, 32, 1, 8, 8, 36 and overwrites
each; the vault region keeps the prior destination content in its body when the
vault is absent. The result is the new 118-byte image. -/
def VestingSchedule.pack_into_slice (r : VestingSchedule) (dst : List Nat) : List Nat :=
  [if r.is_initialized then 1 else 0] ++ r.authority ++ r.mint ++
    [r.frequency.toByte] ++ i64ToLeBytes r.start ++ i64ToLeBytes r.duration ++
    pack_coption_key r.vault ((dst.take 118).drop 82)

/-- `state.rs`: `VestingSchedule::unpack_from_slice`. The source takes the
first 118 bytes (shorter buffers are rejected by the enclosing `Pack` trait
length guard, modelled as the error return) and splits them into regions of
widths 1, 32, 32, 1, 8, 8, 36. -/
def VestingSchedule.unpack_from_slice (src : List Nat) : Except ProgramError VestingSchedule :=
  if src.length < 118 then .error .InvalidAccountData
  else
    let s := src.take 118
    (unpack_bool (s.getD 0 0)).bind fun is_initialized =>
    (unpack_frequency (s.getD 65 0)).bind fun frequency =>
    (unpack_coption_key (s.drop 82)).bind fun vault =>
    .ok { is_initialized := is_initialized
          authority := (s.drop 1).take 32
          mint := (s.drop 33).take 32
          frequency := frequency
          start := i64FromLeBytes ((s.drop 66).take 8)
          duration := i64FromLeBytes ((s.drop 74).take 8)
          vault := vault }

/-- `state.rs`: `Account::pack_into_slice`. Every byte of the 113-byte image is
written, so the result does not depend on the prior destination content. -/
def Account.pack_into_slice (a : Account) (_dst : List Nat) : List Nat :=
  [if a.is_initialized then 1 else 0] ++ a.vesting_schedule ++ a.owner ++ a.mint ++
    u64ToLeBytes a.amount ++ u64ToLeBytes a.claimed

/-- `state.rs`: `Account::unpack_from_slice`, regions of widths
1, 32, 32, 32, 8, 8 over the first 113 bytes. -/
def Account.unpack_from_slice (src : List Nat) : Except ProgramError Account :=
  if src.length < 113 then .error .InvalidAccountData
  else
    let s := src.take 113
    (unpack_bool (s.getD 0 0)).bind fun is_initialized =>
    .ok { is_initialized := is_initialized
          vesting_schedule := (s.drop 1).take 32
          owner := (s.drop 33).take 32
          mint := (s.drop 65).take 32
          amount := u64FromLeBytes ((s.drop 97).take 8)
          claimed := u64FromLeBytes ((s.drop 105).take 8) }

/-- `error.rs`: the program error enum; only `InvalidInstruction` exists. -/
inductive VestingError where
  | InvalidInstruction
  deriving DecidableEq

/-- `instruction.rs::unpack_pubkey`: takes the first 32 bytes as an identity and
returns the remaining suffix, failing when fewer than 32 bytes remain. -/
def unpack_pubkey (input : List Nat) : Except VestingError (List Nat × List Nat) :=
  if 32 ≤ input.length then .ok (input.take 32, input.drop 32)
  else .error .InvalidInstruction

/-- `instruction.rs::unpack_u64`: takes the first 8 bytes as a little-endian
`u64` and returns the remaining suffix. -/
def unpack_u64 (input : List Nat) : Except VestingError (Nat × List Nat) :=
  if 8 ≤ input.length then .ok (u64FromLeBytes (input.take 8), input.drop 8)
  else .error .InvalidInstruction

/-- `instruction.rs::unpack_i64`: takes the first 8 bytes as a little-endian
`i64` and returns the remaining suffix. -/
def unpack_i64 (input : List Nat) : Except VestingError (Int × List Nat) :=
  if 8 ≤ input.length then .ok (i64FromLeBytes (input.take 8), input.drop 8)
  else .error .InvalidInstruction

/-- `instruction.rs::unpack_pubkey_option`: a 1-byte presence tag; `0` yields
`None` and consumes only the tag, `1` is followed by the 32-byte identity, any
other tag (or an empty buffer) is a decode failure. -/
def unpack_pubkey_option (input : List Nat) :
    Except VestingError (Option (List Nat) × List Nat) :=
  match input with
  | [] => .error .InvalidInstruction
  | t :: rest =>
    if t = 0 then .ok (none, rest)
    else if t = 1 then (unpack_pubkey rest).bind fun pr => .ok (some pr.1, pr.2)
    else .error .InvalidInstruction

/-- `instruction.rs::pack_pubkey_option`: appends a 1-byte presence tag to the
buffer, followed by the 32-byte identity only when present. -/
def pack_pubkey_option (value : Option (List Nat)) (buf : List Nat) : List Nat :=
  match value with
  | some key => buf ++ [1] ++ key
  | none => buf ++ [0]

/-- The decoded instruction set of `instruction.rs::VestingInstruction`. -/
inductive VestingInstruction where
  | InitVestingSchedule (authority mint : List Nat) (schedule : Frequency)
      (start duration : Int) (vault : Option (List Nat))
  | CreateAccount (owner : List Nat) (amount : Nat)
  | AmendAmount (amount : Nat)
  | AmendSchedule (start : Option Int) (schedule : Option Frequency)
      (duration : Option Int)
  | Claim
  | CloseAccount
  | CloseVestingSchedule
  deriving DecidableEq

/-- A 1-byte frequency field of the instruction envelope. -/
def unpack_frequency_field (input : List Nat) :
    Except VestingError (Frequency × List Nat) :=
  match input with
  | [] => .error .InvalidInstruction
  | fb :: r =>
    match Frequency.fromByte fb with
    | some f => .ok (f, r)
    | none => .error .InvalidInstruction

/-- An optional `i64` field of the AmendSchedule envelope: a 1-byte presence
flag, followed by the 8-byte value only when the flag is 1. -/
def unpack_i64_option (input : List Nat) :
    Except VestingError (Option Int × List Nat) :=
  match input with
  | [] => .error .InvalidInstruction
  | t :: rest =>
    if t = 0 then .ok (none, rest)
    else if t = 1 then (unpack_i64 rest).bind fun p => .ok (some p.1, p.2)
    else .error .InvalidInstruction

/-- An optional frequency field of the AmendSchedule envelope: a 1-byte
presence flag, followed by the 1-byte frequency only when the flag is 1. -/
def unpack_frequency_option (input : List Nat) :
    Except VestingError (Option Frequency × List Nat) :=
  match input with
  | [] => .error .InvalidInstruction
  | t :: rest =>
    if t = 0 then .ok (none, rest)
    else if t = 1 then
      (unpack_frequency_field rest).bind fun p => .ok (some p.1, p.2)
    else .error .InvalidInstruction

/-- Modelled from the spec: the body of `VestingInstruction::unpack` is a stub
in the source (empty match arms), so the per-tag field lists follow the wire
table of spec section 6 (tags 0 to 6, fields decoded left to right), using the
field decoders that do exist in `instruction.rs`. The optional vault of tag 0
and the optional fields of tag 3 use the 1-byte-tag envelope encoding of the
source helper `unpack_pubkey_option`. An unknown tag or truncated field yields
`InvalidInstruction`. -/
def VestingInstruction.unpack (input : List Nat) :
    Except VestingError VestingInstruction :=
  match input with
  | [] => .error .InvalidInstruction
  | tag :: rest =>
    if tag = 0 then
      (unpack_pubkey rest).bind fun p1 =>
      (unpack_pubkey p1.2).bind fun p2 =>
      (unpack_frequency_field p2.2).bind fun pf =>
      (unpack_i64 pf.2).bind fun ps =>
      (unpack_i64 ps.2).bind fun pd =>
      (unpack_pubkey_option pd.2).bind fun pv =>
      .ok (.InitVestingSchedule p1.1 p2.1 pf.1 ps.1 pd.1 pv.1)
    else if tag = 1 then
      (unpack_pubkey rest).bind fun p1 =>
      (unpack_u64 p1.2).bind fun pa =>
      .ok (.CreateAccount p1.1 pa.1)
    else if tag = 2 then
      (unpack_u64 rest).bind fun pa => .ok (.AmendAmount pa.1)
    else if tag = 3 then
      (unpack_i64_option rest).bind fun ps =>
      (unpack_frequency_option ps.2).bind fun pf =>
      (unpack_i64_option pf.2).bind fun pd =>
      .ok (.AmendSchedule ps.1 pf.1 pd.1)
    else if tag = 4 then .ok .Claim
    else if tag = 5 then .ok .CloseAccount
    else if tag = 6 then .ok .CloseVestingSchedule
    else .error .InvalidInstruction

/-- Seconds-equivalent of a frequency, spec section 4.2 step 2. `Once` is a
single period equal to the whole duration; `Slot` is a non-time unit with no
defined period in this seconds-based model. Modelled from the spec: the spec
names the calendar units without fixing second counts, so the usual
30-day month, 90-day quarter and 365-day year equivalents are used; the
theorems below depend only on the period being positive. -/
def Frequency.periodSeconds : Frequency → Int → Option Int
  | .Once, duration => some duration
  | .Slot, _ => none
  | .Second, _ => some 1
  | .Minute, _ => some 60
  | .Hour, _ => some 3600
  | .Day, _ => some 86400
  | .Week, _ => some 604800
  | .Month, _ => some 2592000
  | .Quarter, _ => some 7776000
  | .Year, _ => some 31536000

/-- Total number of emission periods, spec section 4.2 step 3:
the ceiling of duration over period length, with a minimum of 1. -/
def totalPeriods (duration p : Int) : Nat :=
  max 1 ((duration.toNat + p.toNat - 1) / p.toNat)

/-- Modelled from the spec: `Processor::process` is unimplemented in the
source, so this is the pure claimable function of spec section 4.2.
Returns `none` when the frequency has no defined period or the period is not
positive (the ArithmeticError case of the spec error taxonomy). -/
def claimable (now start duration : Int) (freq : Frequency)
    (amount claimed : Nat) : Option Nat :=
  if now < start then some 0
  else
    match freq.periodSeconds duration with
    | none => none
    | some p =>
      if p ≤ 0 then none
      else
        let total := totalPeriods duration p
        let elapsed := min total ((now - start).toNat / p.toNat)
        let epp := amount / total
        let emitted := if elapsed = total then amount else epp * elapsed
        some (emitted - claimed)

/-- Spec section 7 error taxonomy for the dispatcher. -/
inductive DispatchError where
  | DecodeErr
  | PreconditionErr
  | ArithmeticErr
  deriving DecidableEq

/-- Modelled from the spec: `Processor::process` is unimplemented in the
source, so the AmendAmount transition follows the spec section 4.3 row:
schedule initialized, position initialized and caller equal to the schedule
authority are preconditions, and a new amount below the already claimed total
is a precondition violation; on success only the amount field changes. -/
def amendAmount (sched : VestingSchedule) (pos : Account) (caller : List Nat)
    (newAmount : Nat) : Except DispatchError Account :=
  if sched.is_initialized = false then .error .PreconditionErr
  else if pos.is_initialized = false then .error .PreconditionErr
  else if caller ≠ sched.authority then .error .PreconditionErr
  else if newAmount < pos.claimed then .error .PreconditionErr
  else .ok { pos with amount := newAmount }

/-! ## Helper lemmas on the byte primitives -/

theorem natToLeBytes_length (k n : Nat) : (natToLeBytes k n).length = k := by
  induction k generalizing n with
  | zero => rfl
  | succ k ih => simp [natToLeBytes, ih]

theorem leBytesToNat_natToLeBytes (k n : Nat) (h : n < 256 ^ k) :
    leBytesToNat (natToLeBytes k n) = n := by
  induction k generalizing n with
  | zero =>
      have hn : n = 0 := by simpa using h
      simp [natToLeBytes, leBytesToNat, hn]
  | succ k ih =>
      have hdiv : n / 256 < 256 ^ k := by
        rw [Nat.div_lt_iff_lt_mul (by norm_num)]
        calc n < 256 ^ (k + 1) := h
        _ = 256 ^ k * 256 := by rw [pow_succ]
      simp only [natToLeBytes, leBytesToNat, ih (n / 256) hdiv]
      omega

theorem u64_roundtrip (n : Nat) (h : n < 2 ^ 64) :
    u64FromLeBytes (u64ToLeBytes n) = n :=
  leBytesToNat_natToLeBytes 8 n (by norm_num; omega)

theorem u64ToLeBytes_length (n : Nat) : (u64ToLeBytes n).length = 8 :=
  natToLeBytes_length 8 n

theorem i64ToLeBytes_length (i : Int) : (i64ToLeBytes i).length = 8 :=
  natToLeBytes_length 8 _

theorem i64_roundtrip (i : Int) (h1 : -(2 ^ 63) ≤ i) (h2 : i < 2 ^ 63) :
    i64FromLeBytes (i64ToLeBytes i) = i := by
  have hlt : (i % (2 ^ 64 : Int)).toNat < 2 ^ 64 := by omega
  have hrt : leBytesToNat (natToLeBytes 8 (i % (2 ^ 64 : Int)).toNat)
      = (i % (2 ^ 64 : Int)).toNat :=
    leBytesToNat_natToLeBytes 8 _ (by norm_num at hlt ⊢; omega)
  simp only [i64FromLeBytes, i64ToLeBytes, i64ToUnsigned, hrt]
  split <;> omega

theorem fromByte_toByte (f : Frequency) :
    Frequency.fromByte f.toByte = some f := by
  cases f <;> rfl

/-! ## Field extraction from the packed images -/

theorem vs_pack_fields (r : VestingSchedule) (dst : List Nat)
    (hr : ValidVestingSchedule r) (hdst : dst.length = 118) :
    (r.pack_into_slice dst).length = 118 ∧
    (r.pack_into_slice dst).getD 0 0 = (if r.is_initialized then 1 else 0) ∧
    ((r.pack_into_slice dst).drop 1).take 32 = r.authority ∧
    ((r.pack_into_slice dst).drop 33).take 32 = r.mint ∧
    (r.pack_into_slice dst).getD 65 0 = r.frequency.toByte ∧
    ((r.pack_into_slice dst).drop 66).take 8 = i64ToLeBytes r.start ∧
    ((r.pack_into_slice dst).drop 74).take 8 = i64ToLeBytes r.duration ∧
    (r.pack_into_slice dst).drop 82 =
      pack_coption_key r.vault ((dst.take 118).drop 82) := by
  obtain ⟨⟨hA, -⟩, ⟨hM, -⟩, -, -, -, -, hVv⟩ := hr
  set b : Nat := if r.is_initialized then 1 else 0 with hb
  set V : List Nat := pack_coption_key r.vault ((dst.take 118).drop 82) with hVdef
  have hTake : dst.take 118 = dst := List.take_of_length_le (by omega)
  have hreg : ((dst.take 118).drop 82).length = 36 := by
    rw [hTake, List.length_drop, hdst]
  have hVlen : V.length = 36 := by
    rcases hv : r.vault with - | k
    · simp [hVdef, pack_coption_key, hv, hTake, hdst]
    · rw [hv] at hVv
      simp [hVdef, pack_coption_key, hv, hVv.1]
  have hout : r.pack_into_slice dst =
      [b] ++ (r.authority ++ (r.mint ++ ([r.frequency.toByte] ++
        (i64ToLeBytes r.start ++ (i64ToLeBytes r.duration ++ V))))) := by
    simp [VestingSchedule.pack_into_slice, hb, hVdef, List.append_assoc]
  constructor
  · rw [hout]
    simp [List.length_append, hA, hM, i64ToLeBytes_length, hVlen]
  refine ⟨?_, ?_, ?_, ?_, ?_, ?_, ?_⟩
  · rw [hout]; rfl
  · rw [hout]
    rw [show ([b] ++ (r.authority ++ (r.mint ++ ([r.frequency.toByte] ++
        (i64ToLeBytes r.start ++ (i64ToLeBytes r.duration ++ V)))))).drop 1
      = r.authority ++ (r.mint ++ ([r.frequency.toByte] ++
        (i64ToLeBytes r.start ++ (i64ToLeBytes r.duration ++ V)))) from rfl]
    exact List.take_left' hA
  · rw [hout,
      show [b] ++ (r.authority ++ (r.mint ++ ([r.frequency.toByte] ++
          (i64ToLeBytes r.start ++ (i64ToLeBytes r.duration ++ V)))))
        = ([b] ++ r.authority) ++ (r.mint ++ ([r.frequency.toByte] ++
          (i64ToLeBytes r.start ++ (i64ToLeBytes r.duration ++ V)))) by
        simp [List.append_assoc],
      List.drop_left' (by simp [hA]), List.take_left' hM]
  · rw [hout,
      show [b] ++ (r.authority ++ (r.mint ++ ([r.frequency.toByte] ++
          (i64ToLeBytes r.start ++ (i64ToLeBytes r.duration ++ V)))))
        = (([b] ++ r.authority) ++ r.mint) ++ ([r.frequency.toByte] ++
          (i64ToLeBytes r.start ++ (i64ToLeBytes r.duration ++ V))) by
        simp [List.append_assoc],
      List.getD_append_right _ _ _ _ (by simp [hA, hM])]
    simp [hA, hM]
  · rw [hout,
      show [b] ++ (r.authority ++ (r.mint ++ ([r.frequency.toByte] ++
          (i64ToLeBytes r.start ++ (i64ToLeBytes r.duration ++ V)))))
        = ((([b] ++ r.authority) ++ r.mint) ++ [r.frequency.toByte]) ++
          (i64ToLeBytes r.start ++ (i64ToLeBytes r.duration ++ V)) by
        simp [List.append_assoc],
      List.drop_left' (by simp [hA, hM]), List.take_left' (i64ToLeBytes_length _)]
  · rw [hout,
      show [b] ++ (r.authority ++ (r.mint ++ ([r.frequency.toByte] ++
          (i64ToLeBytes r.start ++ (i64ToLeBytes r.duration ++ V)))))
        = (((([b] ++ r.authority) ++ r.mint) ++ [r.frequency.toByte]) ++
          i64ToLeBytes r.start) ++ (i64ToLeBytes r.duration ++ V) by
        simp [List.append_assoc],
      List.drop_left' (by simp [hA, hM, i64ToLeBytes_length]),
      List.take_left' (i64ToLeBytes_length _)]
  · rw [hout,
      show [b] ++ (r.authority ++ (r.mint ++ ([r.frequency.toByte] ++
          (i64ToLeBytes r.start ++ (i64ToLeBytes r.duration ++ V)))))
        = ((((([b] ++ r.authority) ++ r.mint) ++ [r.frequency.toByte]) ++
          i64ToLeBytes r.start) ++ i64ToLeBytes r.duration) ++ V by
        simp [List.append_assoc],
      List.drop_left' (by simp [hA, hM, i64ToLeBytes_length])]

theorem acc_pack_fields (a : Account) (dst : List Nat) (ha : ValidAccount a) :
    (a.pack_into_slice dst).length = 113 ∧
    (a.pack_into_slice dst).getD 0 0 = (if a.is_initialized then 1 else 0) ∧
    ((a.pack_into_slice dst).drop 1).take 32 = a.vesting_schedule ∧
    ((a.pack_into_slice dst).drop 33).take 32 = a.owner ∧
    ((a.pack_into_slice dst).drop 65).take 32 = a.mint ∧
    ((a.pack_into_slice dst).drop 97).take 8 = u64ToLeBytes a.amount ∧
    (a.pack_into_slice dst).drop 105 = u64ToLeBytes a.claimed := by
  obtain ⟨⟨hS, -⟩, ⟨hO, -⟩, ⟨hM, -⟩, -, -⟩ := ha
  set b : Nat := if a.is_initialized then 1 else 0 with hb
  have hout : a.pack_into_slice dst =
      [b] ++ (a.vesting_schedule ++ (a.owner ++ (a.mint ++
        (u64ToLeBytes a.amount ++ u64ToLeBytes a.claimed)))) := by
    simp [Account.pack_into_slice, hb, List.append_assoc]
  constructor
  · rw [hout]
    simp [List.length_append, hS, hO, hM, u64ToLeBytes_length]
  refine ⟨?_, ?_, ?_, ?_, ?_, ?_⟩
  · rw [hout]; rfl
  · rw [hout]
    rw [show ([b] ++ (a.vesting_schedule ++ (a.owner ++ (a.mint ++
        (u64ToLeBytes a.amount ++ u64ToLeBytes a.claimed))))).drop 1
      = a.vesting_schedule ++ (a.owner ++ (a.mint ++
        (u64ToLeBytes a.amount ++ u64ToLeBytes a.claimed))) from rfl]
    exact List.take_left' hS
  · rw [hout,
      show [b] ++ (a.vesting_schedule ++ (a.owner ++ (a.mint ++
          (u64ToLeBytes a.amount ++ u64ToLeBytes a.claimed))))
        = ([b] ++ a.vesting_schedule) ++ (a.owner ++ (a.mint ++
          (u64ToLeBytes a.amount ++ u64ToLeBytes a.claimed))) by
        simp [List.append_assoc],
      List.drop_left' (by simp [hS]), List.take_left' hO]
  · rw [hout,
      show [b] ++ (a.vesting_schedule ++ (a.owner ++ (a.mint ++
          (u64ToLeBytes a.amount ++ u64ToLeBytes a.claimed))))
        = (([b] ++ a.vesting_schedule) ++ a.owner) ++ (a.mint ++
          (u64ToLeBytes a.amount ++ u64ToLeBytes a.claimed)) by
        simp [List.append_assoc],
      List.drop_left' (by simp [hS, hO]), List.take_left' hM]
  · rw [hout,
      show [b] ++ (a.vesting_schedule ++ (a.owner ++ (a.mint ++
          (u64ToLeBytes a.amount ++ u64ToLeBytes a.claimed))))
        = ((([b] ++ a.vesting_schedule) ++ a.owner) ++ a.mint) ++
          (u64ToLeBytes a.amount ++ u64ToLeBytes a.claimed) by
        simp [List.append_assoc],
      List.drop_left' (by simp [hS, hO, hM]),
      List.take_left' (u64ToLeBytes_length _)]
  · rw [hout,
      show [b] ++ (a.vesting_schedule ++ (a.owner ++ (a.mint ++
          (u64ToLeBytes a.amount ++ u64ToLeBytes a.claimed))))
        = (((([b] ++ a.vesting_schedule) ++ a.owner) ++ a.mint) ++
          u64ToLeBytes a.amount) ++ u64ToLeBytes a.claimed by
        simp [List.append_assoc],
      List.drop_left' (by simp [hS, hO, hM, u64ToLeBytes_length])]

theorem unpack_coption_key_pack (v : Option (List Nat)) (region : List Nat)
    (hv : ValidVault v) :
    unpack_coption_key (pack_coption_key v region) = .ok v := by
  rcases v with - | k
  · simp [pack_coption_key, unpack_coption_key]
  · have hk : k.length = 32 := hv.1
    rw [pack_coption_key, unpack_coption_key]
    rw [List.take_left' (by rfl : ([1, 0, 0, 0] : List Nat).length = 4)]
    rw [if_neg (by decide), if_pos rfl]
    rw [List.drop_left' (by rfl : ([1, 0, 0, 0] : List Nat).length = 4)]
    rw [List.take_of_length_le (le_of_eq hk)]

theorem vs_roundtrip (r : VestingSchedule) (dst : List Nat)
    (hr : ValidVestingSchedule r) (hdst : dst.length = 118) :
    VestingSchedule.unpack_from_slice (r.pack_into_slice dst) = .ok r := by
  obtain ⟨hlen, h0, h1, h33, h65, h66, h74, h82⟩ := vs_pack_fields r dst hr hdst
  obtain ⟨-, -, hs1, hs2, hd1, hd2, hVv⟩ := hr
  have htake : (r.pack_into_slice dst).take 118 = r.pack_into_slice dst :=
    List.take_of_length_le (by omega)
  rw [List.drop_one] at h1
  rw [VestingSchedule.unpack_from_slice, if_neg (by omega)]
  simp only [htake, h0, h65, h82, h66, h74]
  rw [unpack_coption_key_pack r.vault _ hVv]
  rw [unpack_frequency, fromByte_toByte]
  obtain ⟨ri, ra, rm, rf, rs, rd, rv⟩ := r
  cases ri <;>
    simp [unpack_bool, Except.bind, h1, h33,
      i64_roundtrip rs hs1 hs2, i64_roundtrip rd hd1 hd2]

theorem acc_roundtrip (a : Account) (dst : List Nat)
    (ha : ValidAccount a) :
    Account.unpack_from_slice (a.pack_into_slice dst) = .ok a := by
  obtain ⟨hlen, h0, h1, h33, h65, h97, h105⟩ := acc_pack_fields a dst ha
  obtain ⟨-, -, -, ham, hcl⟩ := ha
  have htake : (a.pack_into_slice dst).take 113 = a.pack_into_slice dst :=
    List.take_of_length_le (by omega)
  have h105' : ((a.pack_into_slice dst).drop 105).take 8 = u64ToLeBytes a.claimed := by
    rw [h105, List.take_of_length_le (le_of_eq (u64ToLeBytes_length _))]
  rw [List.drop_one] at h1
  rw [Account.unpack_from_slice, if_neg (by omega)]
  simp only [htake, h0, h97, h105']
  obtain ⟨ai, av, ao, am, aa, ac⟩ := a
  cases ai <;>
    simp [unpack_bool, Except.bind, h1, h33, h65,
      u64_roundtrip aa ham, u64_roundtrip ac hcl]

theorem fromByte_eq_none (b : Nat) (h : 9 < b) : Frequency.fromByte b = none := by
  unfold Frequency.fromByte
  split_ifs <;> first | rfl | omega

theorem fromByte_isSome_of_le (b : Nat) (h : b ≤ 9) :
    ∃ f, Frequency.fromByte b = some f := by
  interval_cases b <;> exact ⟨_, rfl⟩

/-! ## Claim theorems -/

/-- C1: for every `VestingSchedule` and every `Account` (Position) with valid
field values, decoding the bytes produced by encoding the record yields the
original record: `unpack_from_slice (pack_into_slice r) = ok r`. -/
theorem claim_C1_roundtrip :
    (∀ (r : VestingSchedule) (dst : List Nat), ValidVestingSchedule r →
      dst.length = 118 →
      VestingSchedule.unpack_from_slice (r.pack_into_slice dst) = .ok r) ∧
    (∀ (a : Account) (dst : List Nat), ValidAccount a →
      Account.unpack_from_slice (a.pack_into_slice dst) = .ok a) :=
  ⟨vs_roundtrip, acc_roundtrip⟩

/-- Witness for C1 at concrete records. -/
theorem claim_C1_roundtrip_witness :
    VestingSchedule.unpack_from_slice
      (VestingSchedule.pack_into_slice
        ⟨true, List.replicate 32 2, List.replicate 32 3, .Day, -5, 1000,
          some (List.replicate 32 4)⟩ (List.replicate 118 9)) =
      .ok ⟨true, List.replicate 32 2, List.replicate 32 3, .Day, -5, 1000,
          some (List.replicate 32 4)⟩ ∧
    Account.unpack_from_slice
      (Account.pack_into_slice
        ⟨true, List.replicate 32 1, List.replicate 32 2, List.replicate 32 3,
          123456789, 77⟩ (List.replicate 113 0)) =
      .ok ⟨true, List.replicate 32 1, List.replicate 32 2, List.replicate 32 3,
          123456789, 77⟩ :=
  ⟨claim_C1_roundtrip.1 _ _ (by decide) (by decide),
   claim_C1_roundtrip.2 _ _ (by decide)⟩

/-- C2: the encoders produce exactly the fixed positional little-endian layout
of the spec table: a `VestingSchedule` image is 118 bytes with `initialized` at
offset 0, `authority` at 1..33, `mint` at 33..65, `frequency` at 65, `start` at
66..74 little-endian, `duration` at 74..82 little-endian and the vault at
82..118 as a 4-byte tag followed by the 32-byte body; an `Account` (Position)
image is 113 bytes with `initialized` at 0, schedule reference at 1..33,
`owner` at 33..65, `mint` at 65..97, `amount` at 97..105 little-endian and
`claimed` at 105..113 little-endian (`u64ToLeBytes` and `i64ToLeBytes` place
the low byte first). -/
theorem claim_C2_layout :
    (∀ (r : VestingSchedule) (dst : List Nat), ValidVestingSchedule r →
      dst.length = 118 →
      (r.pack_into_slice dst).length = 118 ∧
      (r.pack_into_slice dst).getD 0 0 = (if r.is_initialized then 1 else 0) ∧
      ((r.pack_into_slice dst).drop 1).take 32 = r.authority ∧
      ((r.pack_into_slice dst).drop 33).take 32 = r.mint ∧
      (r.pack_into_slice dst).getD 65 0 = r.frequency.toByte ∧
      ((r.pack_into_slice dst).drop 66).take 8 = i64ToLeBytes r.start ∧
      ((r.pack_into_slice dst).drop 74).take 8 = i64ToLeBytes r.duration ∧
      ((r.pack_into_slice dst).drop 82).take 4 =
        (match r.vault with | some _ => [1, 0, 0, 0] | none => [0, 0, 0, 0]) ∧
      (∀ k, r.vault = some k → (r.pack_into_slice dst).drop 86 = k)) ∧
    (∀ (a : Account) (dst : List Nat), ValidAccount a →
      (a.pack_into_slice dst).length = 113 ∧
      (a.pack_into_slice dst).getD 0 0 = (if a.is_initialized then 1 else 0) ∧
      ((a.pack_into_slice dst).drop 1).take 32 = a.vesting_schedule ∧
      ((a.pack_into_slice dst).drop 33).take 32 = a.owner ∧
      ((a.pack_into_slice dst).drop 65).take 32 = a.mint ∧
      ((a.pack_into_slice dst).drop 97).take 8 = u64ToLeBytes a.amount ∧
      (a.pack_into_slice dst).drop 105 = u64ToLeBytes a.claimed) := by
  constructor
  · intro r dst hr hdst
    obtain ⟨hlen, h0, h1, h33, h65, h66, h74, h82⟩ := vs_pack_fields r dst hr hdst
    refine ⟨hlen, h0, h1, h33, h65, h66, h74, ?_, ?_⟩
    · rw [h82]
      rcases hv : r.vault with - | k
      · simp [pack_coption_key]
      · simp [pack_coption_key]
    · intro k hk
      have hdd : (r.pack_into_slice dst).drop 86
          = ((r.pack_into_slice dst).drop 82).drop 4 := by
        rw [List.drop_drop]
      rw [hdd, h82, hk]
      simp [pack_coption_key]
  · intro a dst ha
    exact acc_pack_fields a dst ha

/-- Witness for C2 at concrete records. -/
theorem claim_C2_layout_witness :
    (VestingSchedule.pack_into_slice
        ⟨true, List.replicate 32 2, List.replicate 32 3, .Day, -5, 1000,
          some (List.replicate 32 4)⟩ (List.replicate 118 9)).length = 118 ∧
    (Account.pack_into_slice
        ⟨true, List.replicate 32 1, List.replicate 32 2, List.replicate 32 3,
          123456789, 77⟩ (List.replicate 113 0)).length = 113 :=
  ⟨(claim_C2_layout.1 _ _ (by decide) (by decide)).1,
   (claim_C2_layout.2 _ _ (by decide)).1⟩

set_option maxRecDepth 4000 in
/-- C9: with an absent vault, `pack_coption_key` writes only the 4-byte zero
tag and leaves the 32-byte body region (bytes 86..118) as it was in the
destination, so the encoded image depends on the prior destination contents:
the same record packed into an all-0 and an all-7 buffer gives different byte
strings, with the zero tag at 82..86 and the stale bytes at 86..118. -/
theorem claim_C9_frame :
    VestingSchedule.pack_into_slice
        ⟨false, List.replicate 32 2, List.replicate 32 3, .Once, 0, 0, none⟩
        (List.replicate 118 0) ≠
      VestingSchedule.pack_into_slice
        ⟨false, List.replicate 32 2, List.replicate 32 3, .Once, 0, 0, none⟩
        (List.replicate 118 7) ∧
    ((VestingSchedule.pack_into_slice
        ⟨false, List.replicate 32 2, List.replicate 32 3, .Once, 0, 0, none⟩
        (List.replicate 118 7)).drop 82).take 4 = [0, 0, 0, 0] ∧
    (VestingSchedule.pack_into_slice
        ⟨false, List.replicate 32 2, List.replicate 32 3, .Once, 0, 0, none⟩
        (List.replicate 118 7)).drop 86 = List.replicate 32 7 := by
  refine ⟨by decide, by decide, by decide⟩

/-- C10: the wire discriminant of `Frequency` is its declaration position
(Once = 0 through Year = 9); the record encoder writes exactly this byte at
offset 65, decoding succeeds exactly for bytes 0 through 9, and decode of
encode is the identity on `Frequency`. -/
theorem claim_C10_frequency :
    (Frequency.toByte .Once = 0 ∧ Frequency.toByte .Slot = 1 ∧
     Frequency.toByte .Second = 2 ∧ Frequency.toByte .Minute = 3 ∧
     Frequency.toByte .Hour = 4 ∧ Frequency.toByte .Day = 5 ∧
     Frequency.toByte .Week = 6 ∧ Frequency.toByte .Month = 7 ∧
     Frequency.toByte .Quarter = 8 ∧ Frequency.toByte .Year = 9) ∧
    (∀ b : Nat, (Frequency.fromByte b).isSome ↔ b ≤ 9) ∧
    (∀ f : Frequency, Frequency.fromByte f.toByte = some f) ∧
    (∀ (r : VestingSchedule) (dst : List Nat), ValidVestingSchedule r →
      dst.length = 118 →
      (r.pack_into_slice dst).getD 65 0 = r.frequency.toByte) := by
  refine ⟨by decide, ?_, fromByte_toByte, ?_⟩
  · intro b
    constructor
    · intro hs
      by_contra hb
      rw [fromByte_eq_none b (by omega)] at hs
      simp at hs
    · intro hb
      obtain ⟨f, hf⟩ := fromByte_isSome_of_le b hb
      simp [hf]
  · intro r dst hr hdst
    exact (vs_pack_fields r dst hr hdst).2.2.2.2.1

/-- Witness for C10 at a concrete record. -/
theorem claim_C10_frequency_witness :
    (Frequency.fromByte 5).isSome = true ∧
    (VestingSchedule.pack_into_slice
        ⟨true, List.replicate 32 2, List.replicate 32 3, .Day, -5, 1000,
          some (List.replicate 32 4)⟩ (List.replicate 118 9)).getD 65 0 =
      Frequency.toByte .Day :=
  ⟨((claim_C10_frequency.2.1 5).mpr (by decide)),
   claim_C10_frequency.2.2.2 _ _ (by decide) (by decide)⟩

/-- C3: record decode rejects every malformed buffer and accepts the rest:
both decoders fail on buffers shorter than the fixed length (118 and 113), on
an initialized byte other than 0 or 1; `VestingSchedule` decode further fails
on a frequency byte above 9 and on a 4-byte vault tag other than
`[0,0,0,0]`/`[1,0,0,0]`; on every other buffer of the fixed length decode
succeeds. -/
theorem claim_C3_malformed :
    (∀ src : List Nat, src.length < 118 →
      VestingSchedule.unpack_from_slice src = .error .InvalidAccountData) ∧
    (∀ src : List Nat, src.length < 113 →
      Account.unpack_from_slice src = .error .InvalidAccountData) ∧
    (∀ src : List Nat, src.length = 118 → src.getD 0 0 ≠ 0 → src.getD 0 0 ≠ 1 →
      VestingSchedule.unpack_from_slice src = .error .InvalidAccountData) ∧
    (∀ src : List Nat, src.length = 113 → src.getD 0 0 ≠ 0 → src.getD 0 0 ≠ 1 →
      Account.unpack_from_slice src = .error .InvalidAccountData) ∧
    (∀ src : List Nat, src.length = 118 → 9 < src.getD 65 0 →
      VestingSchedule.unpack_from_slice src = .error .InvalidAccountData) ∧
    (∀ src : List Nat, src.length = 118 →
      (src.drop 82).take 4 ≠ [0, 0, 0, 0] → (src.drop 82).take 4 ≠ [1, 0, 0, 0] →
      VestingSchedule.unpack_from_slice src = .error .InvalidAccountData) ∧
    (∀ src : List Nat, src.length = 118 →
      (src.getD 0 0 = 0 ∨ src.getD 0 0 = 1) → src.getD 65 0 ≤ 9 →
      ((src.drop 82).take 4 = [0, 0, 0, 0] ∨ (src.drop 82).take 4 = [1, 0, 0, 0]) →
      ∃ r, VestingSchedule.unpack_from_slice src = .ok r) ∧
    (∀ src : List Nat, src.length = 113 →
      (src.getD 0 0 = 0 ∨ src.getD 0 0 = 1) →
      ∃ a, Account.unpack_from_slice src = .ok a) := by
  refine ⟨?_, ?_, ?_, ?_, ?_, ?_, ?_, ?_⟩
  · intro src h
    rw [VestingSchedule.unpack_from_slice, if_pos h]
  · intro src h
    rw [Account.unpack_from_slice, if_pos h]
  · intro src hlen h0 h1
    have htake : src.take 118 = src := List.take_of_length_le (by omega)
    rw [VestingSchedule.unpack_from_slice, if_neg (by omega)]
    simp only [htake, unpack_bool, if_neg h0, if_neg h1]
    rfl
  · intro src hlen h0 h1
    have htake : src.take 113 = src := List.take_of_length_le (by omega)
    rw [Account.unpack_from_slice, if_neg (by omega)]
    simp only [htake, unpack_bool, if_neg h0, if_neg h1]
    rfl
  · intro src hlen hfreq
    have htake : src.take 118 = src := List.take_of_length_le (by omega)
    have hfe : unpack_frequency (src.getD 65 0) = .error .InvalidAccountData := by
      rw [unpack_frequency, fromByte_eq_none _ hfreq]
    rw [VestingSchedule.unpack_from_slice, if_neg (by omega)]
    simp only [htake]
    cases hub : unpack_bool (src.getD 0 0) with
    | error e => cases e; rfl
    | ok b =>
        simp only [Except.bind]
        rw [hfe]
  · intro src hlen htag0 htag1
    have htake : src.take 118 = src := List.take_of_length_le (by omega)
    have hce : unpack_coption_key (src.drop 82) = .error .InvalidAccountData := by
      rw [unpack_coption_key, if_neg htag0, if_neg htag1]
    rw [VestingSchedule.unpack_from_slice, if_neg (by omega)]
    simp only [htake]
    cases hub : unpack_bool (src.getD 0 0) with
    | error e => cases e; rfl
    | ok b =>
        cases huf : unpack_frequency (src.getD 65 0) with
        | error e => cases e; rfl
        | ok f =>
            simp only [Except.bind]
            rw [hce]
  · intro src hlen h0 hfreq htag
    have htake : src.take 118 = src := List.take_of_length_le (by omega)
    obtain ⟨bl, hbl⟩ : ∃ bl, unpack_bool (src.getD 0 0) = .ok bl := by
      rcases h0 with h0 | h0
      · exact ⟨false, by rw [unpack_bool, if_pos h0]⟩
      · exact ⟨true, by rw [unpack_bool, if_neg (by omega), if_pos h0]⟩
    obtain ⟨f, hf⟩ := fromByte_isSome_of_le _ hfreq
    obtain ⟨v, hv⟩ : ∃ v, unpack_coption_key (src.drop 82) = .ok v := by
      rcases htag with htag | htag
      · exact ⟨none, by rw [unpack_coption_key, if_pos htag]⟩
      · exact ⟨some ((src.drop 82).drop 4 |>.take 32),
          by rw [unpack_coption_key, if_neg (by rw [htag]; decide), if_pos htag]⟩
    refine ⟨{ is_initialized := bl,
              authority := (src.drop 1).take 32,
              mint := (src.drop 33).take 32,
              frequency := f,
              start := i64FromLeBytes ((src.drop 66).take 8),
              duration := i64FromLeBytes ((src.drop 74).take 8),
              vault := v }, ?_⟩
    rw [VestingSchedule.unpack_from_slice, if_neg (by omega)]
    simp only [htake, hbl, unpack_frequency, hf, hv, Except.bind]
  · intro src hlen h0
    have htake : src.take 113 = src := List.take_of_length_le (by omega)
    obtain ⟨bl, hbl⟩ : ∃ bl, unpack_bool (src.getD 0 0) = .ok bl := by
      rcases h0 with h0 | h0
      · exact ⟨false, by rw [unpack_bool, if_pos h0]⟩
      · exact ⟨true, by rw [unpack_bool, if_neg (by omega), if_pos h0]⟩
    refine ⟨{ is_initialized := bl,
              vesting_schedule := (src.drop 1).take 32,
              owner := (src.drop 33).take 32,
              mint := (src.drop 65).take 32,
              amount := u64FromLeBytes ((src.drop 97).take 8),
              claimed := u64FromLeBytes ((src.drop 105).take 8) }, ?_⟩
    rw [Account.unpack_from_slice, if_neg (by omega)]
    simp only [htake, hbl, Except.bind]

/-- Witness for C3: a short buffer, a bad boolean byte, a bad frequency byte,
a bad vault tag, and two well-formed buffers. -/
theorem claim_C3_malformed_witness :
    VestingSchedule.unpack_from_slice (List.replicate 117 0) =
      .error .InvalidAccountData ∧
    Account.unpack_from_slice [] = .error .InvalidAccountData ∧
    VestingSchedule.unpack_from_slice (2 :: List.replicate 117 0) =
      .error .InvalidAccountData ∧
    VestingSchedule.unpack_from_slice
      (List.replicate 65 0 ++ [10] ++ List.replicate 52 0) =
      .error .InvalidAccountData ∧
    VestingSchedule.unpack_from_slice
      (List.replicate 82 0 ++ [2, 0, 0, 0] ++ List.replicate 32 0) =
      .error .InvalidAccountData ∧
    (∃ r, VestingSchedule.unpack_from_slice (List.replicate 118 0) = .ok r) ∧
    (∃ a, Account.unpack_from_slice (1 :: List.replicate 112 0) = .ok a) :=
  ⟨claim_C3_malformed.1 _ (by decide),
   claim_C3_malformed.2.1 _ (by decide),
   claim_C3_malformed.2.2.1 _ (by decide) (by decide) (by decide),
   claim_C3_malformed.2.2.2.2.1 _ (by decide) (by decide),
   claim_C3_malformed.2.2.2.2.2.1 _ (by decide) (by decide) (by decide),
   claim_C3_malformed.2.2.2.2.2.2.1 _ (by decide) (by decide) (by decide)
     (by decide),
   claim_C3_malformed.2.2.2.2.2.2.2 _ (by decide) (by decide)⟩

/-- C4 counterexample: in the instruction envelope an absent optional identity
is encoded by `pack_pubkey_option` as the single byte `[0]`, of width 1, not
36, and `unpack_pubkey_option` consumes only that byte — so the claim that
every encoded optional identity occupies 4 + 32 = 36 bytes is false for the
envelope encoding. -/
theorem claim_C4_counterexample :
    (pack_pubkey_option none []).length = 1 ∧ (1 : Nat) ≠ 36 ∧
    unpack_pubkey_option [0] = .ok (none, []) := by
  refine ⟨rfl, by decide, rfl⟩

/-- C4 amended: persisted records encode an optional identity as a 4-byte
presence tag (`[0,0,0,0]` absent, `[1,0,0,0]` present) followed by a 32-byte
body region that is always present in the buffer, 36 bytes in total; the
instruction envelope instead uses a 1-byte presence tag (0 absent, 1 present)
followed by the 32-byte identity only when present, so the envelope width is 1
byte when absent and 33 bytes when present. -/
theorem claim_C4_optional :
    (∀ (v : Option (List Nat)) (region : List Nat), ValidVault v →
      region.length = 36 →
      (pack_coption_key v region).length = 36 ∧
      (pack_coption_key v region).take 4 =
        (match v with | some _ => [1, 0, 0, 0] | none => [0, 0, 0, 0]) ∧
      (∀ k, v = some k → (pack_coption_key v region).drop 4 = k)) ∧
    (∀ buf : List Nat, pack_pubkey_option none buf = buf ++ [0] ∧
      (pack_pubkey_option none buf).length = buf.length + 1) ∧
    (∀ (k : List Nat) (buf : List Nat), k.length = 32 →
      pack_pubkey_option (some k) buf = buf ++ [1] ++ k ∧
      (pack_pubkey_option (some k) buf).length = buf.length + 33) ∧
    (∀ rest : List Nat, unpack_pubkey_option (0 :: rest) = .ok (none, rest)) ∧
    (∀ rest : List Nat, 32 ≤ rest.length →
      unpack_pubkey_option (1 :: rest) =
        .ok (some (rest.take 32), rest.drop 32)) := by
  refine ⟨?_, ?_, ?_, ?_, ?_⟩
  · intro v region hv hreg
    rcases v with - | k
    · refine ⟨by simp [pack_coption_key, hreg], by simp [pack_coption_key], ?_⟩
      intro k hk
      cases hk
    · have hk : k.length = 32 := hv.1
      refine ⟨by simp [pack_coption_key, hk], by simp [pack_coption_key], ?_⟩
      intro k2 hk2
      cases hk2
      simp [pack_coption_key]
  · intro buf
    exact ⟨rfl, by simp [pack_pubkey_option]⟩
  · intro k buf hk
    exact ⟨rfl, by simp [pack_pubkey_option, hk]⟩
  · intro rest
    rfl
  · intro rest hrest
    rw [unpack_pubkey_option]
    simp only [if_neg (by omega : (1 : Nat) ≠ 0), if_pos rfl]
    rw [unpack_pubkey, if_pos hrest]
    rfl

/-- Witness for C4 amended at concrete values. -/
theorem claim_C4_optional_witness :
    (pack_coption_key (some (List.replicate 32 5)) (List.replicate 36 9)).length
      = 36 ∧
    pack_pubkey_option (some (List.replicate 32 5)) [] =
      [] ++ [1] ++ List.replicate 32 5 ∧
    unpack_pubkey_option (1 :: List.replicate 32 5) =
      .ok (some ((List.replicate 32 5).take 32), (List.replicate 32 5).drop 32) :=
  ⟨(claim_C4_optional.1 _ _ (by decide) (by decide)).1,
   (claim_C4_optional.2.2.1 _ [] (by decide)).1,
   claim_C4_optional.2.2.2.2 _ (by decide)⟩

theorem unpack_pubkey_ok (i : List Nat) (h : 32 ≤ i.length) :
    unpack_pubkey i = .ok (i.take 32, i.drop 32) := by
  rw [unpack_pubkey, if_pos h]

theorem unpack_pubkey_err (i : List Nat) (h : i.length < 32) :
    unpack_pubkey i = .error .InvalidInstruction := by
  rw [unpack_pubkey, if_neg (by omega)]

theorem unpack_u64_ok (i : List Nat) (h : 8 ≤ i.length) :
    unpack_u64 i = .ok (u64FromLeBytes (i.take 8), i.drop 8) := by
  rw [unpack_u64, if_pos h]

theorem unpack_u64_err (i : List Nat) (h : i.length < 8) :
    unpack_u64 i = .error .InvalidInstruction := by
  rw [unpack_u64, if_neg (by omega)]

theorem unpack_i64_ok (i : List Nat) (h : 8 ≤ i.length) :
    unpack_i64 i = .ok (i64FromLeBytes (i.take 8), i.drop 8) := by
  rw [unpack_i64, if_pos h]

theorem unpack_i64_err (i : List Nat) (h : i.length < 8) :
    unpack_i64 i = .error .InvalidInstruction := by
  rw [unpack_i64, if_neg (by omega)]

theorem unpack_cons0 (r : List Nat) : VestingInstruction.unpack (0 :: r) =
    ((unpack_pubkey r).bind fun p1 =>
    (unpack_pubkey p1.2).bind fun p2 =>
    (unpack_frequency_field p2.2).bind fun pf =>
    (unpack_i64 pf.2).bind fun ps =>
    (unpack_i64 ps.2).bind fun pd =>
    (unpack_pubkey_option pd.2).bind fun pv =>
    .ok (.InitVestingSchedule p1.1 p2.1 pf.1 ps.1 pd.1 pv.1)) := rfl

theorem unpack_cons1 (r : List Nat) : VestingInstruction.unpack (1 :: r) =
    ((unpack_pubkey r).bind fun p1 =>
    (unpack_u64 p1.2).bind fun pa =>
    .ok (.CreateAccount p1.1 pa.1)) := rfl

theorem unpack_cons2 (r : List Nat) : VestingInstruction.unpack (2 :: r) =
    ((unpack_u64 r).bind fun pa => .ok (.AmendAmount pa.1)) := rfl

theorem unpack_cons3 (r : List Nat) : VestingInstruction.unpack (3 :: r) =
    ((unpack_i64_option r).bind fun ps =>
    (unpack_frequency_option ps.2).bind fun pf =>
    (unpack_i64_option pf.2).bind fun pd =>
    .ok (.AmendSchedule ps.1 pf.1 pd.1)) := rfl

theorem unpack_cons_unknown (t : Nat) (r : List Nat) (h : 6 < t) :
    VestingInstruction.unpack (t :: r) = .error .InvalidInstruction := by
  simp only [VestingInstruction.unpack]
  rw [if_neg (by omega), if_neg (by omega), if_neg (by omega), if_neg (by omega),
    if_neg (by omega), if_neg (by omega), if_neg (by omega)]

theorem unpack_tag0_truncated (r : List Nat) (h : r.length < 82) :
    VestingInstruction.unpack (0 :: r) = .error .InvalidInstruction := by
  rw [unpack_cons0]
  by_cases h1 : 32 ≤ r.length
  · rw [unpack_pubkey_ok _ h1]
    simp only [Except.bind]
    by_cases h2 : 32 ≤ (r.drop 32).length
    · rw [unpack_pubkey_ok _ h2]
      simp only [Except.bind]
      have hlen2 : ((r.drop 32).drop 32).length < 18 := by
        simp only [List.length_drop]
        omega
      cases hr2 : (r.drop 32).drop 32 with
      | nil => rfl
      | cons fb r3 =>
          rw [hr2] at hlen2
          simp only [List.length_cons] at hlen2
          simp only [unpack_frequency_field]
          cases hfb : Frequency.fromByte fb with
          | none => rfl
          | some f =>
              simp only [Except.bind]
              by_cases h4 : 8 ≤ r3.length
              · rw [unpack_i64_ok _ h4]
                simp only [Except.bind]
                by_cases h5 : 8 ≤ (r3.drop 8).length
                · rw [unpack_i64_ok _ h5]
                  simp only [Except.bind]
                  have hnil : (r3.drop 8).drop 8 = [] := by
                    apply List.eq_nil_of_length_eq_zero
                    simp only [List.length_drop]
                    omega
                  rw [hnil]
                  rfl
                · rw [unpack_i64_err _ (by omega)]
              · rw [unpack_i64_err _ (by omega)]
    · rw [unpack_pubkey_err _ (by omega)]
  · rw [unpack_pubkey_err _ (by omega)]
    rfl

theorem unpack_tag1_truncated (r : List Nat) (h : r.length < 40) :
    VestingInstruction.unpack (1 :: r) = .error .InvalidInstruction := by
  rw [unpack_cons1]
  by_cases h1 : 32 ≤ r.length
  · rw [unpack_pubkey_ok _ h1]
    simp only [Except.bind]
    rw [unpack_u64_err _ (by simp only [List.length_drop]; omega)]
  · rw [unpack_pubkey_err _ (by omega)]
    rfl

theorem unpack_tag2_truncated (r : List Nat) (h : r.length < 8) :
    VestingInstruction.unpack (2 :: r) = .error .InvalidInstruction := by
  rw [unpack_cons2, unpack_u64_err _ h]
  rfl

theorem unpack_tag3_truncated (r : List Nat) (h : r.length < 3) :
    VestingInstruction.unpack (3 :: r) = .error .InvalidInstruction := by
  rw [unpack_cons3]
  cases r with
  | nil => rfl
  | cons t r1 =>
      have h1 : r1.length < 2 := by
        simp only [List.length_cons] at h
        omega
      simp only [unpack_i64_option]
      by_cases ht0 : t = 0
      · rw [if_pos ht0]
        simp only [Except.bind]
        cases r1 with
        | nil => rfl
        | cons t2 r2 =>
            have hr2 : r2 = [] := by
              apply List.eq_nil_of_length_eq_zero
              simp only [List.length_cons] at h1
              omega
            subst hr2
            simp only [unpack_frequency_option]
            by_cases ht20 : t2 = 0
            · rw [if_pos ht20]
            · by_cases ht21 : t2 = 1
              · rw [if_neg ht20, if_pos ht21]
                rfl
              · rw [if_neg ht20, if_neg ht21]
      · by_cases ht1 : t = 1
        · rw [if_neg ht0, if_pos ht1]
          rw [unpack_i64_err _ (by omega)]
          rfl
        · rw [if_neg ht0, if_neg ht1]
          rfl

/-- C5: instruction decoding is all-or-nothing. The empty buffer and every
unrecognized tag (above 6) are rejected with `InvalidInstruction`; each field
decoder fails when fewer bytes remain than its fixed width (32 for an
identity, 8 for a 64-bit integer, 1 for a presence byte) and otherwise
consumes exactly its width and returns the remaining suffix; and a buffer
whose tag is recognized but whose fields are truncated (below the minimal
encoded size of that tag) is rejected as a whole, never partially decoded. -/
theorem claim_C5_all_or_nothing :
    (VestingInstruction.unpack [] = .error .InvalidInstruction) ∧
    (∀ (t : Nat) (r : List Nat), 6 < t →
      VestingInstruction.unpack (t :: r) = .error .InvalidInstruction) ∧
    (∀ i : List Nat, i.length < 32 →
      unpack_pubkey i = .error .InvalidInstruction) ∧
    (∀ i : List Nat, 32 ≤ i.length →
      unpack_pubkey i = .ok (i.take 32, i.drop 32)) ∧
    (∀ i : List Nat, i.length < 8 →
      unpack_u64 i = .error .InvalidInstruction) ∧
    (∀ i : List Nat, 8 ≤ i.length →
      unpack_u64 i = .ok (u64FromLeBytes (i.take 8), i.drop 8)) ∧
    (∀ i : List Nat, i.length < 8 →
      unpack_i64 i = .error .InvalidInstruction) ∧
    (∀ i : List Nat, 8 ≤ i.length →
      unpack_i64 i = .ok (i64FromLeBytes (i.take 8), i.drop 8)) ∧
    (unpack_pubkey_option [] = .error .InvalidInstruction) ∧
    (∀ (t : Nat) (r : List Nat), t ≠ 0 → t ≠ 1 →
      unpack_pubkey_option (t :: r) = .error .InvalidInstruction) ∧
    (∀ r : List Nat, r.length < 32 →
      unpack_pubkey_option (1 :: r) = .error .InvalidInstruction) ∧
    (∀ r : List Nat, r.length < 82 →
      VestingInstruction.unpack (0 :: r) = .error .InvalidInstruction) ∧
    (∀ r : List Nat, r.length < 40 →
      VestingInstruction.unpack (1 :: r) = .error .InvalidInstruction) ∧
    (∀ r : List Nat, r.length < 8 →
      VestingInstruction.unpack (2 :: r) = .error .InvalidInstruction) ∧
    (∀ r : List Nat, r.length < 3 →
      VestingInstruction.unpack (3 :: r) = .error .InvalidInstruction) := by
  refine ⟨rfl, unpack_cons_unknown, unpack_pubkey_err, unpack_pubkey_ok,
    unpack_u64_err, unpack_u64_ok, unpack_i64_err, unpack_i64_ok, rfl,
    ?_, ?_, unpack_tag0_truncated, unpack_tag1_truncated,
    unpack_tag2_truncated, unpack_tag3_truncated⟩
  · intro t r ht0 ht1
    simp only [unpack_pubkey_option]
    rw [if_neg ht0, if_neg ht1]
  · intro r hr
    have hstep : unpack_pubkey_option (1 :: r) =
        (unpack_pubkey r).bind fun pr => .ok (some pr.1, pr.2) := by
      simp [unpack_pubkey_option]
    rw [hstep, unpack_pubkey_err _ hr]
    rfl

/-- Witness for C5: an unknown tag, short field buffers, exact-width field
decodes, and truncated per-tag buffers. -/
theorem claim_C5_all_or_nothing_witness :
    VestingInstruction.unpack (7 :: List.replicate 120 0) =
      .error .InvalidInstruction ∧
    unpack_pubkey (List.replicate 31 5) = .error .InvalidInstruction ∧
    unpack_pubkey (List.replicate 33 5) =
      .ok ((List.replicate 33 5).take 32, (List.replicate 33 5).drop 32) ∧
    unpack_u64 [1, 0, 0, 0, 0, 0, 0, 0, 9] =
      .ok (u64FromLeBytes ([1, 0, 0, 0, 0, 0, 0, 0, 9].take 8),
           [1, 0, 0, 0, 0, 0, 0, 0, 9].drop 8) ∧
    unpack_i64 [1, 0, 0, 0] = .error .InvalidInstruction ∧
    unpack_pubkey_option (5 :: List.replicate 32 0) =
      .error .InvalidInstruction ∧
    VestingInstruction.unpack (0 :: List.replicate 81 0) =
      .error .InvalidInstruction ∧
    VestingInstruction.unpack (1 :: List.replicate 39 0) =
      .error .InvalidInstruction ∧
    VestingInstruction.unpack (2 :: List.replicate 7 0) =
      .error .InvalidInstruction ∧
    VestingInstruction.unpack [3, 0, 0] = .error .InvalidInstruction :=
  ⟨claim_C5_all_or_nothing.2.1 7 _ (by decide),
   claim_C5_all_or_nothing.2.2.1 _ (by decide),
   claim_C5_all_or_nothing.2.2.2.1 _ (by decide),
   claim_C5_all_or_nothing.2.2.2.2.2.1 _ (by decide),
   claim_C5_all_or_nothing.2.2.2.2.2.2.1 _ (by decide),
   claim_C5_all_or_nothing.2.2.2.2.2.2.2.2.2.1 5 _ (by decide) (by decide),
   claim_C5_all_or_nothing.2.2.2.2.2.2.2.2.2.2.2.1 _ (by decide),
   claim_C5_all_or_nothing.2.2.2.2.2.2.2.2.2.2.2.2.1 _ (by decide),
   claim_C5_all_or_nothing.2.2.2.2.2.2.2.2.2.2.2.2.2.1 _ (by decide),
   claim_C5_all_or_nothing.2.2.2.2.2.2.2.2.2.2.2.2.2.2 _ (by decide)⟩

/-! ## Vesting math helper lemmas -/

theorem claimable_eval (now start duration : Int) (freq : Frequency)
    (amount claimed : Nat) (p : Int)
    (hf : freq.periodSeconds duration = some p) (hp : 0 < p)
    (hnow : ¬ now < start) :
    claimable now start duration freq amount claimed =
      some ((if min (totalPeriods duration p) ((now - start).toNat / p.toNat)
              = totalPeriods duration p
            then amount
            else amount / totalPeriods duration p *
              min (totalPeriods duration p) ((now - start).toNat / p.toNat))
            - claimed) := by
  simp only [claimable, hf]
  rw [if_neg hnow, if_neg (by omega : ¬ p ≤ 0)]

theorem emitted_mono (amount total e1 e2 : Nat) (h1 : e1 ≤ e2) (h2 : e2 ≤ total) :
    (if e1 = total then amount else amount / total * e1) ≤
    (if e2 = total then amount else amount / total * e2) := by
  by_cases he2 : e2 = total
  · rw [if_pos he2]
    by_cases he1 : e1 = total
    · rw [if_pos he1]
    · rw [if_neg he1]
      calc amount / total * e1 ≤ amount / total * total :=
            Nat.mul_le_mul le_rfl (by omega)
        _ ≤ amount := Nat.div_mul_le_self _ _
  · have he1 : e1 ≠ total := by omega
    rw [if_neg he1, if_neg he2]
    exact Nat.mul_le_mul le_rfl h1

theorem totalPeriods_pos (duration p : Int) : 1 ≤ totalPeriods duration p :=
  le_max_left 1 _

theorem claimable_full (start duration : Int) (freq : Frequency) (amount : Nat)
    (p : Int) (hf : freq.periodSeconds duration = some p) (hp : 0 < p)
    (now : Int)
    (hnow : start + (totalPeriods duration p : Int) * p ≤ now) :
    claimable now start duration freq amount 0 = some amount := by
  have htot1 := totalPeriods_pos duration p
  have hTp : (0 : Int) < (totalPeriods duration p : Int) * p :=
    mul_pos (by exact_mod_cast htot1) hp
  have hge : ¬ now < start := by
    intro hc
    linarith
  rw [claimable_eval now start duration freq amount 0 p hf hp hge]
  have hdiv : totalPeriods duration p ≤ (now - start).toNat / p.toNat := by
    rw [Nat.le_div_iff_mul_le (by omega : 0 < p.toNat)]
    have h1 : (totalPeriods duration p : Int) * p ≤ now - start := by linarith
    have h2 : ((totalPeriods duration p * p.toNat : Nat) : Int) ≤ now - start := by
      push_cast
      rw [Int.toNat_of_nonneg hp.le]
      exact h1
    omega
  rw [min_eq_left hdiv, if_pos rfl]
  simp

theorem totalPeriods_mul_of_dvd (duration p : Int) (hd : 0 < duration)
    (hp : 0 < p) (hdvd : p ∣ duration) :
    (totalPeriods duration p : Int) * p = duration := by
  obtain ⟨q, hq⟩ := hdvd
  have hpq : 0 < p * q := hq ▸ hd
  have hq0 : 0 < q := by
    rcases mul_pos_iff.mp hpq with ⟨-, h⟩ | ⟨h, -⟩
    · exact h
    · omega
  have hcast : ((p.toNat * q.toNat : Nat) : Int) = p * q := by
    push_cast
    rw [Int.toNat_of_nonneg hp.le, Int.toNat_of_nonneg hq0.le]
  have hdn : duration.toNat = p.toNat * q.toNat := by omega
  have hpn : 0 < p.toNat := by omega
  have hqn : 1 ≤ q.toNat := by omega
  have hceil : (duration.toNat + p.toNat - 1) / p.toNat = q.toNat := by
    rw [hdn]
    have hsplit : p.toNat * q.toNat + p.toNat - 1
        = p.toNat * q.toNat + (p.toNat - 1) := by omega
    rw [hsplit, Nat.mul_add_div hpn, Nat.div_eq_of_lt (by omega)]
    omega
  rw [totalPeriods, hceil, max_eq_right hqn]
  have hqq : ((q.toNat : Nat) : Int) = q := Int.toNat_of_nonneg hq0.le
  rw [hqq, hq]
  ring

/-- C6 counterexample: with duration 90, frequency Minute (period 60 seconds),
amount 100 and claimed 0, the section 4.2 function at `now = start + duration`
returns 50, not the full amount 100: `elapsed_periods = floor(90/60) = 1`
stays below `total_periods = ceil(90/60) = 2`, so the `emitted = amount` arm
is never reached at that time and the claim fails as stated. -/
theorem claim_C6_counterexample :
    claimable (0 + 90) 0 90 .Minute 100 0 ≠ some 100 ∧
    claimable (0 + 90) 0 90 .Minute 100 0 = some 50 := by
  refine ⟨by decide, by decide⟩

/-- C6 amended: for every schedule with duration > 0, every frequency with a
defined positive period, every amount and claimed = 0, the section 4.2
function returns 0 at `now = start`, and returns exactly amount (no truncation
loss) once `now ≥ start + total_periods * period_seconds`; that threshold
equals `start + duration` exactly when the period divides the duration (in
particular for Once and Second). -/
theorem claim_C6_boundary :
    ∀ (start duration : Int) (freq : Frequency) (amount : Nat) (p : Int),
      0 < duration → freq.periodSeconds duration = some p → 0 < p →
      claimable start start duration freq amount 0 = some 0 ∧
      (∀ now : Int, start + (totalPeriods duration p : Int) * p ≤ now →
        claimable now start duration freq amount 0 = some amount) ∧
      (p ∣ duration →
        claimable (start + duration) start duration freq amount 0
          = some amount) := by
  intro start duration freq amount p hd hf hp
  refine ⟨?_, claimable_full start duration freq amount p hf hp, ?_⟩
  · rw [claimable_eval start start duration freq amount 0 p hf hp (by omega)]
    have htot1 := totalPeriods_pos duration p
    have h0 : (start - start).toNat / p.toNat = 0 := by
      simp
    rw [h0, Nat.min_zero, if_neg (by omega), Nat.mul_zero]
  · intro hdvd
    apply claimable_full start duration freq amount p hf hp
    rw [totalPeriods_mul_of_dvd duration p hd hp hdvd]

/-- Witness for the amended C6: duration 90 with period 60 reaches the full
amount at the threshold `start + 2 * 60 = 120`; duration 120 with period 60 is
divisible and reaches the full amount exactly at `start + duration`. -/
theorem claim_C6_boundary_witness :
    claimable 0 0 90 .Minute 100 0 = some 0 ∧
    claimable 120 0 90 .Minute 100 0 = some 100 ∧
    claimable (0 + 120) 0 120 .Minute 100 0 = some 100 :=
  ⟨(claim_C6_boundary 0 90 .Minute 100 60 (by decide) (by decide) (by decide)).1,
   (claim_C6_boundary 0 90 .Minute 100 60 (by decide) (by decide)
      (by decide)).2.1 120 (by decide),
   (claim_C6_boundary 0 120 .Minute 100 60 (by decide) (by decide)
      (by decide)).2.2 (by decide)⟩

/-- C7: the section 4.2 claimable function with claimed = 0 is monotonically
non-decreasing in the current time, for every fixed start, duration > 0,
frequency with a defined positive period, and amount. -/
theorem claim_C7_monotonic :
    ∀ (start duration : Int) (freq : Frequency) (amount : Nat) (p : Int)
      (t1 t2 : Int), 0 < duration → freq.periodSeconds duration = some p →
      0 < p → t1 ≤ t2 →
      ∃ c1 c2, claimable t1 start duration freq amount 0 = some c1 ∧
        claimable t2 start duration freq amount 0 = some c2 ∧ c1 ≤ c2 := by
  intro start duration freq amount p t1 t2 hd hf hp h12
  by_cases h1 : t1 < start
  · by_cases h2 : t2 < start
    · exact ⟨0, 0, by rw [claimable, if_pos h1], by rw [claimable, if_pos h2],
        le_rfl⟩
    · exact ⟨0, _, by rw [claimable, if_pos h1],
        claimable_eval t2 start duration freq amount 0 p hf hp h2,
        Nat.zero_le _⟩
  · have h2 : ¬ t2 < start := by omega
    refine ⟨_, _, claimable_eval t1 start duration freq amount 0 p hf hp h1,
      claimable_eval t2 start duration freq amount 0 p hf hp h2, ?_⟩
    simp only [Nat.sub_zero]
    apply emitted_mono
    · exact min_le_min le_rfl (Nat.div_le_div_right (by omega))
    · exact min_le_left _ _

/-- Witness for C7 at a concrete schedule and pair of timestamps. -/
theorem claim_C7_monotonic_witness :
    ∃ c1 c2, claimable 30 0 90 .Minute 100 0 = some c1 ∧
      claimable 120 0 90 .Minute 100 0 = some c2 ∧ c1 ≤ c2 :=
  claim_C7_monotonic 0 90 .Minute 100 60 30 120 (by decide) (by decide)
    (by decide) (by decide)

/-- C8: for every initialized Position and every AmendAmount request whose new
amount is strictly below the current claimed total, the transition fails with
a precondition error (so no mutated Position is produced and claimed is
neither clamped nor reset). -/
theorem claim_C8_amend :
    ∀ (sched : VestingSchedule) (pos : Account) (caller : List Nat) (n : Nat),
      pos.is_initialized = true → n < pos.claimed →
      amendAmount sched pos caller n = .error .PreconditionErr := by
  intro sched pos caller n hinit hlt
  rw [amendAmount]
  split_ifs <;> rfl

/-- Witness for C8 at a concrete schedule, position and amount. -/
theorem claim_C8_amend_witness :
    amendAmount
      ⟨true, List.replicate 32 2, List.replicate 32 3, .Day, -5, 1000,
        some (List.replicate 32 4)⟩
      ⟨true, List.replicate 32 1, List.replicate 32 2, List.replicate 32 3,
        123456789, 77⟩
      (List.replicate 32 2) 50 = .error .PreconditionErr :=
  claim_C8_amend _ _ _ 50 (by decide) (by decide)

end FspVesting
